import Mathlib

/-!
Verification development for the verifying-paymaster-service repository.

The embedding covers the two core subsystems:
* the JSON-RPC request dispatcher (`src/jsonrpc/jsonrpc.go`, function `Process`), and
* the sponsorship / gas-accounting engine (`api` package: `Pm_sponsorUserOperation`,
  `Pm_requestGas`, `Pm_gasRemain`, `Pm_config` on `Signer`).

External collaborators (the account repository, the chain client, the signing key and the
system clock) are modelled as explicit state and oracle records, following the interface the
specification gives for them.  Arbitrary-precision `big.Int` arithmetic is modelled with `Int`
(and `Nat` where the source value is unsigned by construction).
-/

/-! ## Dispatcher (`src/jsonrpc/jsonrpc.go`) -/

/-- Go reflection kinds that the dispatcher's coercion switch in `Process` distinguishes
(`call.Type().In(i).Kind()`).  `other` stands for any kind not named by a case of the switch
(the `default` branch). -/
inductive GoKind where
  | float32 | float64
  | int | int8 | int16 | int32 | int64
  | iface
  | map
  | slice
  | string
  | uint | uint8 | uint16 | uint32 | uint64
  | other
  deriving DecidableEq, Repr

/-- A wire-format (JSON) value as produced by `json.Unmarshal` into `interface\x7b\x7d`:
strings, numbers (decoded by Go as `float64`; the numeric payload is carried here as an
integer, since no verified claim inspects the float value — the dispatcher's type switch
only looks at the dynamic type tag), booleans, null, arrays and objects. -/
inductive Wire where
  | str (s : String)
  | num (x : Int)
  | boolv (b : Bool)
  | null
  | arr (xs : List Wire)
  | obj (fields : List (String × Wire))

/-- A coerced argument value, as placed into `args[i]` by the dispatcher before `call.Call`. -/
inductive GoValue where
  | strv (s : String)
  | numv (k : GoKind) (x : Int)
  | mapv (fields : List (String × Wire))
  | listv (xs : List Wire)
  | anyv (w : Wire)

/-- Outcome of coercing one positional parameter in the dispatcher's switch. -/
inductive CoerceOutcome where
  | ok (v : GoValue)
  | invalid
  | zeroValue

/-- Coercion of one wire argument to one declared parameter kind, translated case by case
from the `switch call.Type().In(i).Kind()` statement in `Process`.

* A Go type assertion `arg.(T)` on a JSON-decoded value succeeds exactly when the dynamic
  type matches: numbers are always `float64`, so the direct assertions to the sized
  integer types and to `float32` always fail and only the `float64` fallback can succeed.
* `string` is the deliberately lenient case: the `ok` check is commented out in the source,
  so a non-string argument yields the zero value `""` and coercion succeeds.
* `other` is the `default` branch: the `if !ok` there tests the *outer* `ok` (which is
  `true` at that point), so no error is raised and `args[i]` is left a zero
  `reflect.Value`, which makes the later `call.Call` panic. -/
def coerceParam : GoKind → Wire → CoerceOutcome
  | .float32, _ => .invalid
  | .float64, .num x => .ok (.numv .float64 x)
  | .float64, _ => .invalid
  | .int, .num x => .ok (.numv .int x)
  | .int, _ => .invalid
  | .int8, .num x => .ok (.numv .int8 x)
  | .int8, _ => .invalid
  | .int16, .num x => .ok (.numv .int16 x)
  | .int16, _ => .invalid
  | .int32, .num x => .ok (.numv .int32 x)
  | .int32, _ => .invalid
  | .int64, .num x => .ok (.numv .int64 x)
  | .int64, _ => .invalid
  | .iface, w => .ok (.anyv w)
  | .map, .obj fs => .ok (.mapv fs)
  | .map, _ => .invalid
  | .slice, .arr xs => .ok (.listv xs)
  | .slice, _ => .invalid
  | .string, .str s => .ok (.strv s)
  | .string, _ => .ok (.strv "")
  | .uint, .num x => .ok (.numv .uint x)
  | .uint, _ => .invalid
  | .uint8, .num x => .ok (.numv .uint8 x)
  | .uint8, _ => .invalid
  | .uint16, .num x => .ok (.numv .uint16 x)
  | .uint16, _ => .invalid
  | .uint32, .num x => .ok (.numv .uint32 x)
  | .uint32, _ => .invalid
  | .uint64, .num x => .ok (.numv .uint64 x)
  | .uint64, _ => .invalid
  | .other, _ => .zeroValue

/-- Outcome of one dispatched call, seen at the point where `Process` either reports a
JSON-RPC error envelope, invokes the resolved method via `call.Call(args)`, or panics
(Go runtime panic from `reflect`: out-of-range `In(i)`, an argument-count mismatch at
`Call`, or a zero `reflect.Value` argument).  An `error` result carries the JSON-RPC code
and, for coercion failures, the parameter index interpolated into the message
`"Param [i] can't be converted to ..."`. -/
inductive DispatchResult where
  | invoked (args : List GoValue)
  | error (code : Int) (paramIdx : Option Nat)
  | panic

/-- The argument-coercion loop of `Process` (`for i, arg := range params`), followed by the
invocation step.  `i` is the current parameter index, `hz` records whether some `args[i]`
was left a zero `reflect.Value` (the `default` branch), `acc` accumulates the coerced
arguments in reverse.  The commented-out arity check in the source means a surplus
parameter reaches `call.Type().In(i)` out of range (panic), and a shortfall reaches
`call.Call` with too few arguments (panic). -/
def processParams (ks : List GoKind) : List Wire → Nat → Bool → List GoValue → DispatchResult
  | [], i, hz, acc =>
    if i < ks.length then .panic
    else if hz then .panic
    else .invoked acc.reverse
  | w :: ws, i, hz, acc =>
    match ks[i]? with
    | none => .panic
    | some k =>
      match coerceParam k w with
      | .invalid => .error (-32602) (some i)
      | .zeroValue => processParams ks ws (i + 1) true acc
      | .ok v => processParams ks ws (i + 1) hz (v :: acc)

/-- Name normalization applied before method lookup:
`cases.Title(language.Und, cases.NoLower).String(method)` title-cases the first letter of
each word and (with `NoLower`) leaves the rest untouched; `_` joins words under Unicode
word segmentation, so for the service's method names this upper-cases the first character. -/
def titleCase (s : String) : String :=
  match s.data with
  | [] => ""
  | c :: cs => String.mk (c.toUpper :: cs)

/-- The method-resolution and argument-coercion core of `Process`: given the registered
service's method table (name, declared parameter kinds), resolve
`cases.Title(...).String(method)` via `reflect.ValueOf(service).MethodByName` —
an unknown name yields the `-32601` "Method not found" envelope — then run the coercion
loop and invoke. -/
def Process (methods : String → Option (List GoKind)) (method : String)
    (params : List Wire) : DispatchResult :=
  match methods (titleCase method) with
  | none => .error (-32601) none
  | some ks => processParams ks params 0 false []

/-- The exported methods of `*api.Signer`, with their declared parameter kinds, as seen by
`reflect.ValueOf(service).MethodByName` in `Process`:
`Pm_sponsorUserOperation(op map[string]any, entryPoint string)`,
`Pm_gasRemain(addr string)`, `Pm_config()`, `Pm_requestGas(addr string)`. -/
def signerMethods : String → Option (List GoKind) := fun name =>
  if name = "Pm_sponsorUserOperation" then some [.map, .string]
  else if name = "Pm_gasRemain" then some [.string]
  else if name = "Pm_config" then some []
  else if name = "Pm_requestGas" then some [.string]
  else none

/-! ## Sponsorship engine data model (`api` package) -/

/-- Account record (`models.Account` as read and written by the `api` package).
The persisted `UsedGas`/`RemainGas` fields are decimal strings parsed with
`big.Int.SetString(-, 10)`; they are modelled as integers.  `LastRequest` is modelled by
its Unix-seconds value (`account.LastRequest.Unix()` is the only way the engine reads it). -/
structure Account where
  address : String
  enable : Bool
  usedGas : Int
  remainGas : Int
  lastRequest : Int
  vipID : Int
  deriving DecidableEq, Repr

/-- Modelled from the spec: the `AccountStore` collaborator (the `models` repository code is
not under `src/`) — "account records keyed by lower-cased address", with
`findByAddress(addr) -> optional Account`, `findByVipTokenId(id) -> optional Account` and
`save(Account)` as the unit of atomicity.  `save` is a keyed upsert on the address. -/
structure Store where
  accounts : List Account
  deriving DecidableEq, Repr

/-- Modelled from the spec: `AccountStore.findByAddress` (`models.Account.FindByAddress`). -/
def Store.findByAddress (st : Store) (key : String) : Option Account :=
  st.accounts.find? (fun b => b.address == key)

/-- Modelled from the spec: `AccountStore.findByVipTokenId` (`models.Account.FindByVipID`). -/
def Store.findByVipID (st : Store) (id : Int) : Option Account :=
  st.accounts.find? (fun b => b.vipID == id)

/-- Modelled from the spec: `AccountStore.save` (`repository.Save`), a keyed upsert on the
account's address. -/
def Store.save (st : Store) (a : Account) : Store :=
  if st.accounts.any (fun b => b.address == a.address) then
    ⟨st.accounts.map (fun b => if b.address == a.address then a else b)⟩
  else
    ⟨a :: st.accounts⟩

/-- `strings.ToLower`, applied to addresses before every store lookup and on account
creation: per-rune lower-casing (chain addresses are ASCII hex strings). -/
def goToLower (s : String) : String := String.mk (s.data.map Char.toLower)

/-- The configuration-derived fields of `api.Signer` that the engine's control flow reads:
the paymaster contract address bytes (`s.Contract.Bytes()`, spliced into
`PaymasterAndData`), the three gas-tier ceilings, and the VIP contract address string
returned by `Pm_config`. -/
structure Signer where
  contractBytes : List Nat
  createGas : Int
  maxGas : Int
  maxVipGas : Int
  vipContract : String

/-- The fields of `types.UserOperation` that the engine's control flow inspects: the sender
address (account lookup key) and `MaxFeePerGas` (cost computation).  All other fields flow
unmodified into the opaque chain-client call `Paymaster.GetHash`.  Modelled from the spec:
`types.NewUserOperation` (repository code not under `src/`) parses the raw map, and the cost
is computed "using unsigned arbitrary-precision arithmetic", so `maxFeePerGas` is a `Nat`. -/
structure UserOperation where
  sender : String
  maxFeePerGas : Nat

/-- Modelled from the spec: the raw first argument of `Pm_sponsorUserOperation` is either
malformed (parse failure) or determines a `UserOperation`. -/
def RawOp : Type := Option UserOperation

/-- Errors returned by `Pm_sponsorUserOperation`, one constructor per `return nil, err`
site: parse failure, the `"insufficient gas"` refusals (account-lookup failure, absent
account, or cost above balance), and failures of the external save / hash / sign calls. -/
inductive SpErr where
  | invalidOp
  | insufficientGas
  | saveError
  | hashError
  | signError
  deriving DecidableEq, Repr

/-- Modelled from the spec: `types.NewUserOperation`, "Parse `rawOp` into the UserOperation
shape; malformed input" is an error. -/
def NewUserOperation : RawOp → Except SpErr UserOperation
  | none => .error .invalidOp
  | some u => .ok u

/-- Outcomes of the external calls made by one `Pm_sponsorUserOperation` call, plus the
clock: whether `FindByAddress` / `Save` / `GetHash` / `SignMessage` succeed, the value of
`time.Now().Unix()`, and the signature bytes the signing key produces. -/
structure SponsorExt where
  findOk : Bool
  saveOk : Bool
  hashOk : Bool
  signOk : Bool
  now : Int
  sigByte : Fin 65 → Nat

/-- Modelled from the spec: `utils.SignMessage` (repository code not under `src/`) produces
the authorization "signature(65 bytes)"; the byte contents are an oracle of the signing
key, the length is 65. -/
def signMessage (ext : SponsorExt) : List Nat := List.ofFn ext.sigByte

/-- Observable side-effect trace of one `Pm_sponsorUserOperation` call: attempts to persist
the deducted balances (`repository.Save`, with outcome) and attempts to sign
(`utils.SignMessage`). -/
inductive Event where
  | saveAttempt (ok : Bool)
  | signAttempt
  deriving DecidableEq, Repr

/-- The source constant `validTimeDelay = 86400` ("one day"). -/
def validTimeDelay : Int := 86400

/-- Big-endian 32-byte encoding of a `big.Int` packed as an ABI `uint256`:
go-ethereum's `packNum` applies `math.U256Bytes`, i.e. reduction modulo 2^256
(two's complement for negative values), then 32 big-endian bytes. -/
def beBytes32 (n : Int) : List Nat :=
  (List.range 32).map fun i => (n.emod (2 ^ 256)).toNat / 256 ^ (31 - i) % 256

/-- `timeRangeABI.Pack(validUntil, validAfter)`: both arguments are declared with ABI type
`uint256` (`abi.NewType("uint256", "uint48", ...)`), so the packing is two 32-byte words,
`validUntil` first.  On two `*big.Int` arguments this `Pack` cannot fail. -/
def abiPackTimeRange (validUntil validAfter : Int) : List Nat :=
  beBytes32 validUntil ++ beBytes32 validAfter

/-- The fixed estimation constant `preVerificationGas = big.NewInt(52304)`. -/
def preVerificationGasConst : Int := 52304

/-- The fixed estimation constant `verificationGas = big.NewInt(100000)`. -/
def verificationGasConst : Int := 100000

/-- The fixed estimation constant `callGas = big.NewInt(33100)`. -/
def callGasConst : Int := 33100

/-- `totalGas = (preVerificationGas + verificationGas + callGas) * userOp.MaxFeePerGas`,
computed in `Pm_sponsorUserOperation` with `big.Int` addition and multiplication. -/
def totalCost (u : UserOperation) : Int :=
  (preVerificationGasConst + verificationGasConst + callGasConst) * (u.maxFeePerGas : Int)

/-- The success payload of `Pm_sponsorUserOperation` (`PaymasterResult`).  The source
hex-encodes each field with `hexutil.Encode`; the fields are modelled at the byte /
integer level. -/
structure PaymasterResult where
  paymasterAndData : List Nat
  preVerificationGas : Int
  verificationGasLimit : Int
  callGasLimit : Int

/-- The admission / deduction / signing pipeline of `Pm_sponsorUserOperation` after the
sender's account has been found, translated line by line from the source:
parse the stored balance, compute `totalGas`, refuse with `"insufficient gas"` when
`totalGas > remainGas`, otherwise add to `UsedGas`, subtract from `RemainGas`, persist via
`Save` (failure aborts the call), build `validAfter = now`,
`validUntil = validAfter + validTimeDelay`, pack the time range, compute the hash
(`Paymaster.GetHash`, an opaque chain call that may fail), sign, and return
`Contract.Bytes() || timeRangeData || signature` with the three gas constants. -/
def sponsorCore (s : Signer) (st : Store) (ext : SponsorExt)
    (userOp : UserOperation) (account : Account) :
    Except SpErr PaymasterResult × Store × List Event :=
  let remainGas := account.remainGas
  let totalGas := totalCost userOp
  if totalGas > remainGas then (.error .insufficientGas, st, [])
  else
    let account' := { account with
      usedGas := account.usedGas + totalGas
      remainGas := remainGas - totalGas }
    if ext.saveOk then
      let st' := st.save account'
      let validAfter := ext.now
      let validUntil := validAfter + validTimeDelay
      let timeRangeData := abiPackTimeRange validUntil validAfter
      if ext.hashOk then
        if ext.signOk then
          (.ok {
            paymasterAndData := s.contractBytes ++ timeRangeData ++ signMessage ext
            preVerificationGas := preVerificationGasConst
            verificationGasLimit := verificationGasConst
            callGasLimit := callGasConst }, st', [.saveAttempt true, .signAttempt])
        else (.error .signError, st', [.saveAttempt true, .signAttempt])
      else (.error .hashError, st', [.saveAttempt true])
    else (.error .saveError, st, [.saveAttempt false])

/-- `Signer.Pm_sponsorUserOperation(op map[string]any, entryPoint string)`.
The first statement of the body overwrites `entryPoint` with the constant
`"0x5FF137D4b0FDCD49DcA30c7CF57E578a026d2789"` (and the only code that read it, the
dynamic gas estimation, is commented out).  Then: parse the operation, look the sender up
by lower-cased address (`FindByAddress`; a lookup error or an absent account both return
`"insufficient gas"` — note the source does not consult `account.Enable` here), and run
the deduction / signing pipeline.  The result is the returned value, the resulting store
and the side-effect trace. -/
def Pm_sponsorUserOperation (s : Signer) (st : Store) (ext : SponsorExt)
    (op : RawOp) (entryPoint : String) :
    Except SpErr PaymasterResult × Store × List Event :=
  let entryPoint := "0x5FF137D4b0FDCD49DcA30c7CF57E578a026d2789"
  let _ := entryPoint
  match NewUserOperation op with
  | .error e => (.error e, st, [])
  | .ok userOp =>
    if ext.findOk then
      match st.findByAddress (goToLower userOp.sender) with
      | none => (.error .insufficientGas, st, [])
      | some account => sponsorCore s st ext userOp account
    else (.error .insufficientGas, st, [])

/-- Errors returned by `Pm_requestGas` / `Pm_gasRemain`, one constructor per exit:
repository-lookup failures, the `"frequent requests with NFT"` refusal, the
`"account disabled"` refusal, the `"frequent requests"` refusal, a `Save` failure, and
`nilPanic` for the Go runtime panic that occurs when `account.LastRequest` is read while
`account` is a nil pointer (reachable in `Pm_requestGas` when the caller has no account
but an account is linked to the caller's VIP token). -/
inductive ReqErr where
  | queryError
  | queryVipError
  | frequentNFT
  | accountDisabled
  | frequentRequests
  | saveError
  | nilPanic
  deriving DecidableEq, Repr

/-- Outcomes of the external calls made by one `Pm_requestGas` call, plus the clock:
whether `FindByAddress` succeeds, the result of `VipContract.TokenOfOwnerByIndex(addr, 0)`
(`none` when the chain query errors, which the source treats as "not VIP"; otherwise the
`Int64` value of the returned token id), whether `FindByVipID` succeeds, whether `Save`
succeeds, and `time.Now().Unix()`. -/
structure ReqExt where
  findOk : Bool
  vipIndex : Option Int
  findVipOk : Bool
  saveOk : Bool
  now : Int
  deriving Repr

/-- The grant tail of `Pm_requestGas`: set `RemainGas = gas`, `LastRequest = now`,
`VipID = lastVip`, and persist; a `Save` failure surfaces as an error with no
store change. -/
def saveGrant (st : Store) (ext : ReqExt) (account : Account) (gas lastVip : Int) :
    Except ReqErr Bool × Store :=
  let account' := { account with remainGas := gas, lastRequest := ext.now, vipID := lastVip }
  if ext.saveOk then (.ok true, st.save account') else (.error .saveError, st)

/-- The `if account != nil \x7b ... \x7d else \x7b ... \x7d` block of `Pm_requestGas` and the grant
that follows it: an existing account is refused when disabled (`"account disabled"`) or
when its last grant is within the 24-hour window (`"frequent requests"`); a fresh account
is created with `UsedGas = "0"`, and a fresh non-VIP caller's allowance drops to
`CreateGas`. -/
def requestTail (s : Signer) (st : Store) (ext : ReqExt)
    (addr : String) (lastVip : Int) (gas : Int) (account? : Option Account) :
    Except ReqErr Bool × Store :=
  match account? with
  | some account =>
    if !account.enable then (.error .accountDisabled, st)
    else if account.lastRequest + 86400 > ext.now then (.error .frequentRequests, st)
    else saveGrant st ext account gas lastVip
  | none =>
    let gas := if lastVip = -1 then s.createGas else gas
    let account : Account :=
      { address := goToLower addr, enable := true, usedGas := 0
        remainGas := 0, lastRequest := 0, vipID := 0 }
    saveGrant st ext account gas lastVip

/-- `Signer.Pm_requestGas(addr string)`, translated from the source: look the caller up by
lower-cased address (lookup error is fatal); query VIP-token ownership
(`lastVip = -1` on a query error, else the token id); if `lastVip != -1`, look up the
account linked to that token id (`FindByVipID`, error fatal) and — when such an account
exists — refuse with `"frequent requests with NFT"` if *the caller's own* account's
`LastRequest` is within 24 hours (note the source reads `account.LastRequest`, not
`last.LastRequest`; when the caller has no account this line dereferences a nil pointer
and panics), otherwise the allowance becomes `MaxVipGas`; finally run the
existing/fresh-account checks and persist the grant. -/
def Pm_requestGas (s : Signer) (st : Store) (ext : ReqExt) (addr : String) :
    Except ReqErr Bool × Store :=
  if !ext.findOk then (.error .queryError, st)
  else
    let account? := st.findByAddress (goToLower addr)
    let lastVip : Int := ext.vipIndex.getD (-1)
    if lastVip ≠ -1 then
      if !ext.findVipOk then (.error .queryVipError, st)
      else
        match st.findByVipID lastVip, account? with
        | some _, none => (.error .nilPanic, st)
        | some _, some account =>
          if account.lastRequest + 86400 > ext.now then (.error .frequentNFT, st)
          else requestTail s st ext addr lastVip s.maxVipGas account?
        | none, _ => requestTail s st ext addr lastVip s.maxVipGas account?
    else requestTail s st ext addr lastVip s.maxGas account?

/-- The success payload of `Pm_gasRemain` (`GasRemain`); the decimal-string fields are
modelled as integers. -/
structure GasRemainOut where
  remain : Int
  lastRequest : Int
  used : Int
  deriving DecidableEq, Repr

/-- `Signer.Pm_gasRemain(addr string)`: look the account up by lower-cased address (lookup
error fatal); an absent or disabled account reports zeros; otherwise report the stored
balances and `LastRequest.Unix()`.  Read-only. -/
def Pm_gasRemain (st : Store) (findOk : Bool) (addr : String) :
    Except ReqErr GasRemainOut × Store :=
  if !findOk then (.error .queryError, st)
  else
    match st.findByAddress (goToLower addr) with
    | none => (.ok ⟨0, 0, 0⟩, st)
    | some a =>
      if !a.enable then (.ok ⟨0, 0, 0⟩, st)
      else (.ok ⟨a.remainGas, a.lastRequest, a.usedGas⟩, st)

/-- The payload of `Pm_config` (`PaymasterConfig`): the configured `MaxGas`,
`VipContract` and `VipMaxGas`. -/
structure PaymasterConfigOut where
  maxGas : Int
  vipContract : String
  maxVipGas : Int
  deriving Repr

/-- `Signer.Pm_config()`: returns the static configuration values; read-only. -/
def Pm_config (s : Signer) : PaymasterConfigOut :=
  ⟨s.maxGas, s.vipContract, s.maxVipGas⟩

/-- One inbound engine call, with the oracle outcomes of its external collaborators. -/
inductive Call where
  | sponsor (ext : SponsorExt) (op : RawOp) (entryPoint : String)
  | request (ext : ReqExt) (addr : String)
  | gasRemain (findOk : Bool) (addr : String)
  | config

/-- The store after one engine call. -/
def stepCall (s : Signer) (st : Store) : Call → Store
  | .sponsor ext op e => (Pm_sponsorUserOperation s st ext op e).2.1
  | .request ext addr => (Pm_requestGas s st ext addr).2
  | .gasRemain findOk addr => (Pm_gasRemain st findOk addr).2
  | .config => st

/-- The store after a sequence of engine calls. -/
def run (s : Signer) (st : Store) : List Call → Store
  | [] => st
  | c :: cs => run s (stepCall s st c) cs

/-! ## Store lemmas -/

/-- A found account is a member of the store and carries the queried address. -/
theorem findByAddress_spec {st : Store} {k : String} {a : Account}
    (h : st.findByAddress k = some a) : a ∈ st.accounts ∧ a.address = k := by
  unfold Store.findByAddress at h
  refine ⟨List.mem_of_find?_eq_some h, ?_⟩
  have := List.find?_some h
  simpa using this

theorem find_replace_self (l : List Account) (a : Account)
    (h : l.any (fun b => b.address == a.address) = true) :
    (l.map (fun b => if b.address == a.address then a else b)).find?
      (fun b => b.address == a.address) = some a := by
  induction l with
  | nil => simp at h
  | cons b l ih =>
    by_cases hb : b.address == a.address
    · simp [List.find?, hb]
    · simp only [List.any_cons, hb, Bool.false_or] at h
      simp only [List.map_cons, if_neg (by simpa using hb), List.find?]
      rw [if_neg hb] at *
      simpa [hb] using ih h

theorem find_replace_ne (l : List Account) (a : Account) (k : String)
    (hk : k ≠ a.address) :
    (l.map (fun b => if b.address == a.address then a else b)).find?
      (fun b => b.address == k) = l.find? (fun b => b.address == k) := by
  induction l with
  | nil => rfl
  | cons b l ih =>
    simp only [List.map_cons]
    by_cases hb : b.address = a.address
    · have hbk : ¬ (b.address = k) := by rw [hb]; exact fun h => hk h.symm
      have hak : ¬ (a.address = k) := fun h => hk h.symm
      rw [if_pos (by simpa using hb), List.find?_cons_of_neg _ (by simpa using hak),
        List.find?_cons_of_neg _ (by simpa using hbk)]
      exact ih
    · rw [if_neg (by simpa using hb)]
      by_cases hbk : b.address = k
      · rw [List.find?_cons_of_pos _ (by simpa using hbk),
          List.find?_cons_of_pos _ (by simpa using hbk)]
      · rw [List.find?_cons_of_neg _ (by simpa using hbk),
          List.find?_cons_of_neg _ (by simpa using hbk)]
        exact ih

/-- After `save a`, looking up `a`'s address finds exactly `a`. -/
theorem findByAddress_save_self (st : Store) (a : Account) :
    (st.save a).findByAddress a.address = some a := by
  unfold Store.save Store.findByAddress
  by_cases h : st.accounts.any (fun b => b.address == a.address)
  · simpa [h] using find_replace_self st.accounts a h
  · simp [h, List.find?]

/-- `save a` does not change lookups at other addresses. -/
theorem findByAddress_save_ne (st : Store) (a : Account) (k : String)
    (hk : k ≠ a.address) :
    (st.save a).findByAddress k = st.findByAddress k := by
  unfold Store.save Store.findByAddress
  by_cases h : st.accounts.any (fun b => b.address == a.address)
  · simpa [h] using find_replace_ne st.accounts a k hk
  · have hak : ¬ (a.address = k) := fun h' => hk h'.symm
    simp [h, List.find?, hak]

/-- Membership after `save a`: either the saved account or an account already present. -/
theorem mem_save {st : Store} {a b : Account} (h : b ∈ (st.save a).accounts) :
    b = a ∨ b ∈ st.accounts := by
  unfold Store.save at h
  by_cases hc : st.accounts.any (fun c => c.address == a.address)
  · rw [if_pos hc] at h
    simp only [List.mem_map] at h
    obtain ⟨c, hc', hce⟩ := h
    by_cases hca : c.address == a.address
    · left; rw [if_pos hca] at hce; exact hce.symm
    · right; rw [if_neg hca] at hce; exact hce ▸ hc'
  · rw [if_neg hc] at h
    rcases List.mem_cons.mp h with h | h
    · exact Or.inl h
    · exact Or.inr h

/-! ## Sponsorship claims -/

/-- Reduction of `Pm_sponsorUserOperation` to its post-lookup pipeline when the operation
parses and the sender's account is found. -/
theorem sponsor_reduces (s : Signer) (st : Store) (ext : SponsorExt)
    (op : RawOp) (entry : String) (u : UserOperation) (account : Account)
    (hop : NewUserOperation op = .ok u)
    (hfind : ext.findOk = true)
    (hacc : st.findByAddress (goToLower u.sender) = some account) :
    Pm_sponsorUserOperation s st ext op entry = sponsorCore s st ext u account := by
  unfold Pm_sponsorUserOperation
  cases op with
  | none => simp [NewUserOperation] at hop
  | some u' =>
    simp only [NewUserOperation, Except.ok.injEq] at hop
    subst hop
    simp [NewUserOperation, hfind, hacc]

/-- C1: for every successful `sponsorUserOperation` call, `totalCost` equals
`(preVerificationGas + verificationGasLimit + callGasLimit) * maxFeePerGas` in
arbitrary-precision integer arithmetic, the stored `remainingGas` after the call equals
the balance before minus `totalCost`, the stored `usedGas` after equals the value before
plus `totalCost`, success implies `totalCost ≤ remainingGas` before the call; and when
`totalCost > remainingGas` the call refuses with `insufficient gas` and performs no
mutation. -/
theorem c1_gas_accounting (s : Signer) (st : Store) (ext : SponsorExt)
    (op : RawOp) (entry : String) (u : UserOperation) (account : Account)
    (hop : NewUserOperation op = .ok u)
    (hfind : ext.findOk = true)
    (hacc : st.findByAddress (goToLower u.sender) = some account) :
    (∀ r st' ev, Pm_sponsorUserOperation s st ext op entry = (.ok r, st', ev) →
        totalCost u ≤ account.remainGas ∧
        st'.findByAddress (goToLower u.sender) =
          some { account with usedGas := account.usedGas + totalCost u
                              remainGas := account.remainGas - totalCost u }) ∧
    (totalCost u > account.remainGas →
        Pm_sponsorUserOperation s st ext op entry = (.error .insufficientGas, st, [])) := by
  have hrun := sponsor_reduces s st ext op entry u account hop hfind hacc
  have haddr : account.address = goToLower u.sender := (findByAddress_spec hacc).2
  constructor
  · intro r st' ev hok
    rw [hrun] at hok
    simp only [sponsorCore] at hok
    by_cases hgt : totalCost u > account.remainGas
    · rw [if_pos hgt] at hok
      exact absurd hok (by simp)
    · rw [if_neg hgt] at hok
      refine ⟨not_lt.mp hgt, ?_⟩
      by_cases hs : ext.saveOk
      · rw [if_pos hs] at hok
        by_cases hh : ext.hashOk
        · rw [if_pos hh] at hok
          by_cases hg : ext.signOk
          · rw [if_pos hg] at hok
            have hst : st' = st.save
                { account with usedGas := account.usedGas + totalCost u
                               remainGas := account.remainGas - totalCost u } := by
              have := congrArg (fun p => p.2.1) hok
              simpa using this.symm
            rw [hst, ← haddr]
            exact findByAddress_save_self st _
          · rw [if_neg hg] at hok
            exact absurd hok (by simp)
        · rw [if_neg hh] at hok
          exact absurd hok (by simp)
      · rw [if_neg hs] at hok
        exact absurd hok (by simp)
  · intro hgt
    rw [hrun]
    simp only [sponsorCore]
    rw [if_pos hgt]

/-- Concrete signer fixture for witnesses and counterexamples. -/
def cSigner : Signer :=
  { contractBytes := [17, 34], createGas := 10, maxGas := 100, maxVipGas := 1000
    vipContract := "0xvip" }

/-- An enabled account fixture with a large balance. -/
def eAccount : Account :=
  { address := "0xeee", enable := true, usedGas := 10, remainGas := 2000000
    lastRequest := 0, vipID := -1 }

/-- Store fixture holding `eAccount`. -/
def eStore : Store := ⟨[eAccount]⟩

/-- Oracle fixture: all external calls succeed. -/
def eExt : SponsorExt :=
  { findOk := true, saveOk := true, hashOk := true, signOk := true, now := 5
    sigByte := fun _ => 7 }

/-- A well-formed user operation from `eAccount`'s address (upper-cased on the wire). -/
def eUser : UserOperation := { sender := "0xEEE", maxFeePerGas := 2 }

/-- The raw form of `eUser`. -/
def eOp : RawOp := some eUser

/-- Witness for C1 at a concrete input: the sponsorship of `eUser` succeeds and the stored
balances move by exactly `totalCost eUser`. -/
theorem c1_gas_accounting_witness :
    totalCost eUser ≤ eAccount.remainGas ∧
    (Pm_sponsorUserOperation cSigner eStore eExt eOp "entry").2.1.findByAddress
        (goToLower eUser.sender) =
      some { eAccount with usedGas := eAccount.usedGas + totalCost eUser
                           remainGas := eAccount.remainGas - totalCost eUser } :=
  (c1_gas_accounting cSigner eStore eExt eOp "entry" eUser eAccount rfl rfl (by decide)).1
    _ _ _ rfl

/-- C2: a signed authorization is never handed out without a persisted deduction: when the
`Save` of the deducted balances fails the call returns an error (so no authorization bytes
are produced) and the signing step is never reached; and whenever the signing step is
reached, the save has succeeded and precedes it in the effect trace. -/
theorem c2_persist_before_sign (s : Signer) (st : Store) (ext : SponsorExt)
    (op : RawOp) (entry : String) :
    (ext.saveOk = false →
      (∃ e, (Pm_sponsorUserOperation s st ext op entry).1 = .error e) ∧
      Event.signAttempt ∉ (Pm_sponsorUserOperation s st ext op entry).2.2) ∧
    (Event.signAttempt ∈ (Pm_sponsorUserOperation s st ext op entry).2.2 →
      ext.saveOk = true ∧
      (Pm_sponsorUserOperation s st ext op entry).2.2 =
        [Event.saveAttempt true, Event.signAttempt]) := by
  unfold Pm_sponsorUserOperation
  cases op with
  | none => simp [NewUserOperation]
  | some u =>
    simp only [NewUserOperation]
    by_cases hf : ext.findOk
    · rw [if_pos hf]
      cases hacc : st.findByAddress (goToLower u.sender) with
      | none => simp
      | some account =>
        simp only [sponsorCore]
        by_cases hgt : totalCost u > account.remainGas
        · rw [if_pos hgt]; simp
        · rw [if_neg hgt]
          by_cases hs : ext.saveOk
          · rw [if_pos hs]
            by_cases hh : ext.hashOk
            · rw [if_pos hh]
              by_cases hg : ext.signOk
              · rw [if_pos hg]; simp [hs]
              · rw [if_neg hg]; simp [hs]
            · rw [if_neg hh]; simp [hs]
          · rw [if_neg hs]
            refine ⟨fun _ => ⟨⟨SpErr.saveError, rfl⟩, by simp⟩, fun hm => ?_⟩
            simp at hm
    · rw [if_neg hf]; simp

/-- Witness for C2 at a concrete input with a failing save. -/
theorem c2_persist_before_sign_witness :
    (∃ e, (Pm_sponsorUserOperation cSigner eStore
        { eExt with saveOk := false } eOp "entry").1 = .error e) ∧
    Event.signAttempt ∉ (Pm_sponsorUserOperation cSigner eStore
        { eExt with saveOk := false } eOp "entry").2.2 :=
  (c2_persist_before_sign cSigner eStore { eExt with saveOk := false } eOp "entry").1 rfl

/-- C10: the outcome of `Pm_sponsorUserOperation` — returned value, error, resulting store
and effect trace — is independent of the `entryPointAddress` argument, because the body's
first statement overwrites it with the constant
`"0x5FF137D4b0FDCD49DcA30c7CF57E578a026d2789"` and nothing else reads it. -/
theorem c10_entrypoint_ignored (s : Signer) (st : Store) (ext : SponsorExt)
    (op : RawOp) (e1 e2 : String) :
    Pm_sponsorUserOperation s st ext op e1 = Pm_sponsorUserOperation s st ext op e2 := rfl

/-- A disabled account fixture with a large balance. -/
def dAccount : Account :=
  { address := "0xaaa", enable := false, usedGas := 0, remainGas := 1000000000
    lastRequest := 0, vipID := -1 }

/-- Store fixture holding only the disabled `dAccount`. -/
def dStore : Store := ⟨[dAccount]⟩

/-- A well-formed user operation whose sender is the disabled account. -/
def dOp : RawOp := some { sender := "0xAAA", maxFeePerGas := 1 }

/-- C3 (code bug): `Pm_sponsorUserOperation` never consults `account.Enable`.  A disabled
account with sufficient balance is sponsored: the call returns a signed authorization and
persists the deduction, where the specification requires an `InsufficientGas` refusal with
no persistence write.  (`totalCost = 185404 * 1`, deducted from `1000000000`.) -/
theorem c3_disabled_account_sponsored :
    dAccount.enable = false ∧
    (∃ r, (Pm_sponsorUserOperation cSigner dStore eExt dOp "e").1 = .ok r) ∧
    (Pm_sponsorUserOperation cSigner dStore eExt dOp "e").2.1.findByAddress "0xaaa" =
      some { dAccount with usedGas := 185404, remainGas := 999814596 } := by
  exact ⟨rfl, ⟨_, rfl⟩, by decide⟩

/-- C8: for every successful `sponsorUserOperation` call, the returned
`paymasterAndData` bytes equal `paymasterContractAddress || abiEncode(validUntil,
validAfter) || signature`, the signature is 65 bytes, `validAfter` is the issue time
(`time.Now().Unix()`), and `validUntil - validAfter` equals exactly 86400 seconds. -/
theorem c8_authorization_layout (s : Signer) (st : Store) (ext : SponsorExt)
    (op : RawOp) (entry : String) (r : PaymasterResult) (st' : Store) (ev : List Event)
    (h : Pm_sponsorUserOperation s st ext op entry = (.ok r, st', ev)) :
    r.paymasterAndData =
      s.contractBytes ++ abiPackTimeRange (ext.now + validTimeDelay) ext.now ++
        signMessage ext ∧
    (signMessage ext).length = 65 ∧
    (ext.now + validTimeDelay) - ext.now = 86400 := by
  refine ⟨?_, by simp [signMessage], by unfold validTimeDelay; omega⟩
  unfold Pm_sponsorUserOperation at h
  cases op with
  | none => exact absurd h (by simp [NewUserOperation])
  | some u =>
    simp only [NewUserOperation] at h
    by_cases hf : ext.findOk
    · rw [if_pos hf] at h
      cases hacc : st.findByAddress (goToLower u.sender) with
      | none => rw [hacc] at h; exact absurd h (by simp)
      | some account =>
        rw [hacc] at h
        simp only [sponsorCore] at h
        by_cases hgt : totalCost u > account.remainGas
        · rw [if_pos hgt] at h; exact absurd h (by simp)
        · rw [if_neg hgt] at h
          by_cases hs : ext.saveOk
          · rw [if_pos hs] at h
            by_cases hh : ext.hashOk
            · rw [if_pos hh] at h
              by_cases hg : ext.signOk
              · rw [if_pos hg] at h
                have hr := congrArg (fun p => p.1) h
                simp only [Except.ok.injEq] at hr
                rw [← hr]
              · rw [if_neg hg] at h; exact absurd h (by simp)
            · rw [if_neg hh] at h; exact absurd h (by simp)
          · rw [if_neg hs] at h; exact absurd h (by simp)
    · rw [if_neg hf] at h; exact absurd h (by simp)

/-- Witness for C8 at a concrete input. -/
theorem c8_authorization_layout_witness :
    ({ paymasterAndData :=
         cSigner.contractBytes ++ abiPackTimeRange (eExt.now + validTimeDelay) eExt.now ++
           signMessage eExt
       preVerificationGas := preVerificationGasConst
       verificationGasLimit := verificationGasConst
       callGasLimit := callGasConst } : PaymasterResult).paymasterAndData =
      cSigner.contractBytes ++ abiPackTimeRange (eExt.now + validTimeDelay) eExt.now ++
        signMessage eExt ∧
    (signMessage eExt).length = 65 ∧
    (eExt.now + validTimeDelay) - eExt.now = 86400 :=
  c8_authorization_layout cSigner eStore eExt eOp "entry" _ _ _ rfl

/-! ## Allowance-request claims -/

/-- Characterization of a successful grant tail for an existing account: the persisted
account sits at the caller's lower-cased address and its `remainGas` is the selected
allowance. -/
theorem requestTail_ok_some (s : Signer) (st : Store) (ext : ReqExt) (addr : String)
    (lastVip gas : Int) (account : Account) (st' : Store)
    (hkey : account.address = goToLower addr)
    (h : requestTail s st ext addr lastVip gas (some account) = (.ok true, st')) :
    ∃ a', st'.findByAddress (goToLower addr) = some a' ∧ a'.remainGas = gas := by
  simp only [requestTail, saveGrant] at h
  by_cases hen : account.enable
  · rw [if_neg (by simp [hen])] at h
    by_cases hfreq : account.lastRequest + 86400 > ext.now
    · rw [if_pos hfreq] at h
      exact absurd h (by simp)
    · rw [if_neg hfreq] at h
      by_cases hs : ext.saveOk
      · rw [if_pos hs] at h
        have hst : st' = st.save
            { account with remainGas := gas, lastRequest := ext.now, vipID := lastVip } := by
          have := congrArg (fun p => p.2) h
          simpa using this.symm
        refine ⟨{ account with remainGas := gas, lastRequest := ext.now, vipID := lastVip },
          ?_, rfl⟩
        rw [hst, ← hkey]
        exact findByAddress_save_self st _
      · rw [if_neg hs] at h
        exact absurd h (by simp)
  · rw [if_pos (by simp [hen])] at h
    exact absurd h (by simp)

/-- Characterization of a successful grant tail for a fresh account: the persisted account
sits at the caller's lower-cased address and its `remainGas` is the selected allowance,
dropped to `createGas` for a non-VIP caller. -/
theorem requestTail_ok_none (s : Signer) (st : Store) (ext : ReqExt) (addr : String)
    (lastVip gas : Int) (st' : Store)
    (h : requestTail s st ext addr lastVip gas none = (.ok true, st')) :
    ∃ a', st'.findByAddress (goToLower addr) = some a' ∧
      a'.remainGas = (if lastVip = -1 then s.createGas else gas) := by
  simp only [requestTail, saveGrant] at h
  by_cases hs : ext.saveOk
  · rw [if_pos hs] at h
    have hst : st' = st.save
        { address := goToLower addr, enable := true, usedGas := 0
          remainGas := if lastVip = -1 then s.createGas else gas
          lastRequest := ext.now, vipID := lastVip } := by
      have := congrArg (fun p => p.2) h
      simpa using this.symm
    refine ⟨{ address := goToLower addr, enable := true, usedGas := 0
              remainGas := if lastVip = -1 then s.createGas else gas
              lastRequest := ext.now, vipID := lastVip }, ?_, rfl⟩
    rw [hst]
    exact findByAddress_save_self st _
  · rw [if_neg hs] at h
    exact absurd h (by simp)

/-- Characterization of the allowance selected by a successful `Pm_requestGas` grant:
`maxVipGas` on the VIP path, `createGas` for a fresh non-VIP account, `maxGas` otherwise. -/
theorem requestGas_grant_spec (s : Signer) (st : Store) (ext : ReqExt) (addr : String)
    (st' : Store)
    (h : Pm_requestGas s st ext addr = (.ok true, st')) :
    ∃ a', st'.findByAddress (goToLower addr) = some a' ∧
      a'.remainGas =
        (if ext.vipIndex.getD (-1) ≠ -1 then s.maxVipGas
         else if st.findByAddress (goToLower addr) = none then s.createGas
         else s.maxGas) := by
  simp only [Pm_requestGas] at h
  split at h
  · exact absurd h (by simp)
  · split at h
    · rename_i hv
      rw [if_pos hv]
      split at h
      · exact absurd h (by simp)
      · split at h
        · exact absurd h (by simp)
        · rename_i linked account hlink hacc
          split at h
          · exact absurd h (by simp)
          · rw [hacc] at h
            exact requestTail_ok_some s st ext addr _ _ account st'
              (findByAddress_spec hacc).2 h
        · rename_i hlink hx
          cases hacc : st.findByAddress (goToLower addr) with
          | none =>
            rw [hacc] at h
            obtain ⟨a', hfind', hgas⟩ := requestTail_ok_none s st ext addr _ _ st' h
            exact ⟨a', hfind', by rw [hgas, if_neg hv]⟩
          | some account =>
            rw [hacc] at h
            exact requestTail_ok_some s st ext addr _ _ account st'
              (findByAddress_spec hacc).2 h
    · rename_i hv
      have hveq : ext.vipIndex.getD (-1) = -1 := not_not.mp hv
      rw [if_neg hv]
      cases hacc : st.findByAddress (goToLower addr) with
      | none =>
        rw [hacc] at h
        obtain ⟨a', hfind', hgas⟩ := requestTail_ok_none s st ext addr _ _ st' h
        exact ⟨a', hfind', by rw [hgas, if_pos hveq]; simp⟩
      | some account =>
        rw [hacc] at h
        obtain ⟨a', hfind', hgas⟩ := requestTail_ok_some s st ext addr _ _ account st'
          (findByAddress_spec hacc).2 h
        exact ⟨a', hfind', by rw [hgas]; simp⟩

/-- C7: when `requestGas` grants an allowance, the granted `remainingGas` equals exactly
the tier ceiling selected by the caller's status: `maxVipGas` for a VIP token holder,
`createGas` for a first-time caller with no existing account who is not VIP, and `maxGas`
for a returning non-VIP caller whose window has expired. -/
theorem c7_tier_ceilings (s : Signer) (st : Store) (ext : ReqExt) (addr : String)
    (st' : Store)
    (h : Pm_requestGas s st ext addr = (.ok true, st')) :
    ∃ a', st'.findByAddress (goToLower addr) = some a' ∧
      a'.remainGas =
        (if ext.vipIndex.getD (-1) ≠ -1 then s.maxVipGas
         else if st.findByAddress (goToLower addr) = none then s.createGas
         else s.maxGas) :=
  requestGas_grant_spec s st ext addr st' h

/-- Oracle fixture for a plain (non-VIP) grant. -/
def gExt : ReqExt :=
  { findOk := true, vipIndex := none, findVipOk := true, saveOk := true, now := 1000000 }

/-- Witness for C7 at a concrete input: `eAccount`'s window has long expired, so the
returning non-VIP caller is granted `maxGas`. -/
theorem c7_tier_ceilings_witness :
    ∃ a', (Pm_requestGas cSigner eStore gExt "0xEEE").2.findByAddress
        (goToLower "0xEEE") = some a' ∧
      a'.remainGas =
        (if gExt.vipIndex.getD (-1) ≠ -1 then cSigner.maxVipGas
         else if eStore.findByAddress (goToLower "0xEEE") = none then cSigner.createGas
         else cSigner.maxGas) :=
  c7_tier_ceilings cSigner eStore gExt "0xEEE" _ rfl

/-- An enabled non-VIP account inside its 24-hour window. -/
def wAccount : Account :=
  { address := "0xddd", enable := true, usedGas := 5, remainGas := 7
    lastRequest := 999000, vipID := -1 }

/-- Store fixture holding `wAccount`. -/
def wStore : Store := ⟨[wAccount]⟩

/-- C6 (amended): on the non-VIP path, an existing *enabled* account whose
`lastRequestTime` is within 24 hours of now is refused with `frequent requests` and the
store is not mutated. -/
theorem c6_rate_limit_refusal (s : Signer) (st : Store) (ext : ReqExt) (addr : String)
    (account : Account)
    (hfind : ext.findOk = true)
    (hvip : ext.vipIndex.getD (-1) = -1)
    (hacc : st.findByAddress (goToLower addr) = some account)
    (hen : account.enable = true)
    (hfreq : account.lastRequest + 86400 > ext.now) :
    Pm_requestGas s st ext addr = (.error .frequentRequests, st) := by
  simp only [Pm_requestGas, hfind, Bool.not_true]
  rw [if_neg (by decide), if_neg (by simp [hvip]), hacc]
  simp only [requestTail]
  rw [if_neg (by simp [hen]), if_pos hfreq]

/-- Witness for the amended C6 at a concrete input. -/
theorem c6_rate_limit_refusal_witness :
    Pm_requestGas cSigner wStore gExt "0xDDD" = (.error .frequentRequests, wStore) :=
  c6_rate_limit_refusal cSigner wStore gExt "0xDDD" wAccount rfl rfl rfl rfl (by decide)

/-- A disabled non-VIP account inside its 24-hour window. -/
def fAccount : Account :=
  { address := "0xccc", enable := false, usedGas := 5, remainGas := 7
    lastRequest := 999000, vipID := -1 }

/-- Store fixture holding `fAccount`. -/
def fStore : Store := ⟨[fAccount]⟩

/-- C6 counterexample: an existing account inside its 24-hour window for which the non-VIP
path of `Pm_requestGas` refuses with `account disabled`, not `frequent requests` — the
source checks `Enable` before the rate limit, so the claim's "always refuses with
FrequentRequest" fails on disabled accounts (the refusal still performs no mutation). -/
theorem c6_counterexample :
    fStore.findByAddress (goToLower "0xCCC") = some fAccount ∧
    fAccount.lastRequest + 86400 > gExt.now ∧
    gExt.vipIndex.getD (-1) = -1 ∧
    Pm_requestGas cSigner fStore gExt "0xCCC" = (.error .accountDisabled, fStore) ∧
    ReqErr.accountDisabled ≠ ReqErr.frequentRequests :=
  ⟨by decide, by decide, rfl, rfl, by decide⟩

/-- C4 (amended): when the caller owns a VIP token and some account is currently linked to
that token id, `Pm_requestGas` refuses with `frequent requests with NFT` exactly when *the
caller's own* account exists and its last grant is within the 24-hour window (the source
reads `account.LastRequest`, not the linked account's); and whenever a VIP caller is
granted, the granted allowance is `maxVipGas`. -/
theorem c4_vip_slot_gate (s : Signer) (st : Store) (ext : ReqExt) (addr : String) :
    (∀ linked account,
      ext.findOk = true →
      ext.vipIndex.getD (-1) ≠ -1 →
      ext.findVipOk = true →
      st.findByVipID (ext.vipIndex.getD (-1)) = some linked →
      st.findByAddress (goToLower addr) = some account →
      account.lastRequest + 86400 > ext.now →
      Pm_requestGas s st ext addr = (.error .frequentNFT, st)) ∧
    (∀ st', ext.vipIndex.getD (-1) ≠ -1 →
      Pm_requestGas s st ext addr = (.ok true, st') →
      ∃ a', st'.findByAddress (goToLower addr) = some a' ∧
        a'.remainGas = s.maxVipGas) := by
  constructor
  · intro linked account hfind hv hvo hlink hacc hfreq
    simp only [Pm_requestGas, hfind, Bool.not_true]
    rw [if_neg (by decide), if_pos hv]
    simp only [hvo, Bool.not_true]
    rw [if_neg (by decide), hlink, hacc]
    simp [hfreq]
  · intro st' hv hok
    obtain ⟨a', hfind', hgas⟩ := requestGas_grant_spec s st ext addr st' hok
    exact ⟨a', hfind', by rw [hgas, if_pos hv]⟩

/-- The account linked to VIP token 7, freshly granted (inside its window). -/
def vLinked : Account :=
  { address := "0x111", enable := true, usedGas := 0, remainGas := 50
    lastRequest := 999990, vipID := 7 }

/-- The VIP caller's own account, last granted long ago. -/
def vCaller : Account :=
  { address := "0x222", enable := true, usedGas := 3, remainGas := 9
    lastRequest := 0, vipID := -1 }

/-- Store fixture holding the linked account and the caller's account. -/
def vStore : Store := ⟨[vLinked, vCaller]⟩

/-- Oracle fixture: the caller owns VIP token 7. -/
def vExt : ReqExt :=
  { findOk := true, vipIndex := some 7, findVipOk := true, saveOk := true, now := 1000000 }

/-- C4 counterexample: the account linked to the caller's VIP token id exists and its last
grant is inside the 24-hour window, yet `Pm_requestGas` grants (returns `true`) instead of
refusing with a FrequentRequest error — the rate check reads the caller's own account,
whose window has long expired. -/
theorem c4_counterexample :
    vStore.findByVipID 7 = some vLinked ∧
    vLinked.lastRequest + 86400 > vExt.now ∧
    vStore.findByAddress (goToLower "0x222") = some vCaller ∧
    vCaller.address ≠ vLinked.address ∧
    (Pm_requestGas cSigner vStore vExt "0x222").1 = .ok true :=
  ⟨by decide, by decide, by decide, by decide, rfl⟩

/-- The VIP caller's own account inside its 24-hour window. -/
def wVipCaller : Account :=
  { address := "0x333", enable := true, usedGas := 3, remainGas := 9
    lastRequest := 999995, vipID := -1 }

/-- Store fixture holding the linked account and the in-window caller's account. -/
def wVipStore : Store := ⟨[vLinked, wVipCaller]⟩

/-- Witness for the amended C4 at concrete inputs: the refusal keyed on the caller's own
window, and the `maxVipGas` grant when the caller's own window has expired. -/
theorem c4_vip_slot_gate_witness :
    Pm_requestGas cSigner wVipStore vExt "0x333" = (.error .frequentNFT, wVipStore) ∧
    (∃ a', (Pm_requestGas cSigner vStore vExt "0x222").2.findByAddress
        (goToLower "0x222") = some a' ∧ a'.remainGas = cSigner.maxVipGas) :=
  ⟨(c4_vip_slot_gate cSigner wVipStore vExt "0x333").1 vLinked wVipCaller rfl (by decide)
      rfl rfl rfl (by decide),
   (c4_vip_slot_gate cSigner vStore vExt "0x222").2 _ (by decide) rfl⟩

/-! ## Ledger invariants across call sequences -/

/-- `totalGas` is non-negative: the fee is an unsigned quantity and the estimation
constants are positive. -/
theorem totalCost_nonneg (u : UserOperation) : 0 ≤ totalCost u := by
  unfold totalCost preVerificationGasConst verificationGasConst callGasConst
  have : (0 : Int) ≤ (u.maxFeePerGas : Int) := Int.natCast_nonneg _
  nlinarith

/-- An overdraft is refused before any mutation: when `totalGas` exceeds the stored
balance, `Pm_sponsorUserOperation` returns the `insufficient gas` error, the store is
unchanged and no external effect is attempted. -/
theorem sponsor_refuses_overdraft (s : Signer) (st : Store) (ext : SponsorExt)
    (op : RawOp) (e : String) (u : UserOperation) (account : Account)
    (hop : NewUserOperation op = .ok u) (hfind : ext.findOk = true)
    (hacc : st.findByAddress (goToLower u.sender) = some account)
    (hgt : totalCost u > account.remainGas) :
    Pm_sponsorUserOperation s st ext op e = (.error .insufficientGas, st, []) := by
  rw [sponsor_reduces s st ext op e u account hop hfind hacc]
  simp only [sponsorCore]
  rw [if_pos hgt]

/-- The store after `Pm_sponsorUserOperation` is either unchanged or the keyed upsert of
the found account with `totalGas` moved from `RemainGas` to `UsedGas` (and the move only
happens when the balance covers it). -/
theorem sponsor_store_cases (s : Signer) (st : Store) (ext : SponsorExt)
    (op : RawOp) (e : String) :
    (Pm_sponsorUserOperation s st ext op e).2.1 = st ∨
    ∃ u account, st.findByAddress (goToLower u.sender) = some account ∧
      totalCost u ≤ account.remainGas ∧
      (Pm_sponsorUserOperation s st ext op e).2.1 =
        st.save { account with usedGas := account.usedGas + totalCost u
                               remainGas := account.remainGas - totalCost u } := by
  unfold Pm_sponsorUserOperation
  cases op with
  | none => exact Or.inl rfl
  | some u =>
    simp only [NewUserOperation]
    by_cases hf : ext.findOk
    · rw [if_pos hf]
      cases hacc : st.findByAddress (goToLower u.sender) with
      | none => exact Or.inl rfl
      | some account =>
        simp only [sponsorCore]
        by_cases hgt : totalCost u > account.remainGas
        · rw [if_pos hgt]; exact Or.inl rfl
        · rw [if_neg hgt]
          by_cases hs : ext.saveOk
          · rw [if_pos hs]
            by_cases hh : ext.hashOk
            · rw [if_pos hh]
              by_cases hg : ext.signOk
              · rw [if_pos hg]
                exact Or.inr ⟨u, account, hacc, not_lt.mp hgt, rfl⟩
              · rw [if_neg hg]
                exact Or.inr ⟨u, account, hacc, not_lt.mp hgt, rfl⟩
            · rw [if_neg hh]
              exact Or.inr ⟨u, account, hacc, not_lt.mp hgt, rfl⟩
          · rw [if_neg hs]; exact Or.inl rfl
    · rw [if_neg hf]; exact Or.inl rfl

/-- The store after a grant tail on an existing account is either unchanged or the upsert
of that account with the selected allowance. -/
theorem requestTail_store_some (s : Signer) (st : Store) (ext : ReqExt) (addr : String)
    (lastVip gas : Int) (account : Account) :
    (requestTail s st ext addr lastVip gas (some account)).2 = st ∨
    (requestTail s st ext addr lastVip gas (some account)).2 =
      st.save { account with remainGas := gas, lastRequest := ext.now, vipID := lastVip } := by
  simp only [requestTail, saveGrant]
  by_cases hen : account.enable
  · rw [if_neg (by simp [hen])]
    by_cases hfreq : account.lastRequest + 86400 > ext.now
    · rw [if_pos hfreq]; exact Or.inl rfl
    · rw [if_neg hfreq]
      by_cases hs : ext.saveOk
      · rw [if_pos hs]; exact Or.inr rfl
      · rw [if_neg hs]; exact Or.inl rfl
  · rw [if_pos (by simp [hen])]; exact Or.inl rfl

/-- The store after a grant tail on a fresh account is either unchanged or the upsert of
the newly created account at the caller's lower-cased address. -/
theorem requestTail_store_none (s : Signer) (st : Store) (ext : ReqExt) (addr : String)
    (lastVip gas : Int) :
    (requestTail s st ext addr lastVip gas none).2 = st ∨
    (requestTail s st ext addr lastVip gas none).2 =
      st.save { address := goToLower addr, enable := true, usedGas := 0
                remainGas := if lastVip = -1 then s.createGas else gas
                lastRequest := ext.now, vipID := lastVip } := by
  simp only [requestTail, saveGrant]
  by_cases hs : ext.saveOk
  · rw [if_pos hs]; exact Or.inr rfl
  · rw [if_neg hs]; exact Or.inl rfl

/-- The store after `Pm_requestGas` is either unchanged or the upsert of an account whose
allowance is one of the three configured tier ceilings; an existing account keeps its
`usedGas` and address, a fresh account starts at `usedGas = 0` under the caller's
lower-cased address (at which no account existed). -/
theorem request_store_cases (s : Signer) (st : Store) (ext : ReqExt) (addr : String) :
    (Pm_requestGas s st ext addr).2 = st ∨
    ∃ a', (Pm_requestGas s st ext addr).2 = st.save a' ∧
      (a'.remainGas = s.createGas ∨ a'.remainGas = s.maxGas ∨
        a'.remainGas = s.maxVipGas) ∧
      ((∃ a0, st.findByAddress (goToLower addr) = some a0 ∧
          a'.usedGas = a0.usedGas ∧ a'.address = a0.address) ∨
       (st.findByAddress (goToLower addr) = none ∧ a'.usedGas = 0 ∧
          a'.address = goToLower addr)) := by
  simp only [Pm_requestGas]
  split
  · exact Or.inl rfl
  · split
    · split
      · exact Or.inl rfl
      · split
        · exact Or.inl rfl
        · rename_i linked account hlink hacc
          split
          · exact Or.inl rfl
          · rw [hacc]
            rcases requestTail_store_some s st ext addr (ext.vipIndex.getD (-1))
                s.maxVipGas account with h | h
            · exact Or.inl h
            · exact Or.inr ⟨_, h, Or.inr (Or.inr rfl),
                Or.inl ⟨account, rfl, rfl, rfl⟩⟩
        · rename_i hlink hx
          cases hacc : st.findByAddress (goToLower addr) with
          | none =>
            rcases requestTail_store_none s st ext addr (ext.vipIndex.getD (-1))
                s.maxVipGas with h | h
            · exact Or.inl h
            · refine Or.inr ⟨_, h, ?_, Or.inr ⟨rfl, rfl, rfl⟩⟩
              by_cases hlv : ext.vipIndex.getD (-1) = -1
              · rw [if_pos hlv]; exact Or.inl rfl
              · rw [if_neg hlv]; exact Or.inr (Or.inr rfl)
          | some account =>
            rcases requestTail_store_some s st ext addr (ext.vipIndex.getD (-1))
                s.maxVipGas account with h | h
            · exact Or.inl h
            · exact Or.inr ⟨_, h, Or.inr (Or.inr rfl),
                Or.inl ⟨account, rfl, rfl, rfl⟩⟩
    · cases hacc : st.findByAddress (goToLower addr) with
      | none =>
        rcases requestTail_store_none s st ext addr (ext.vipIndex.getD (-1))
            s.maxGas with h | h
        · exact Or.inl h
        · refine Or.inr ⟨_, h, ?_, Or.inr ⟨rfl, rfl, rfl⟩⟩
          by_cases hlv : ext.vipIndex.getD (-1) = -1
          · rw [if_pos hlv]; exact Or.inl rfl
          · rw [if_neg hlv]; exact Or.inr (Or.inl rfl)
      | some account =>
        rcases requestTail_store_some s st ext addr (ext.vipIndex.getD (-1))
            s.maxGas account with h | h
        · exact Or.inl h
        · exact Or.inr ⟨_, h, Or.inr (Or.inl rfl),
            Or.inl ⟨account, rfl, rfl, rfl⟩⟩

/-- `Pm_gasRemain` never mutates the store. -/
theorem gasRemain_store (st : Store) (f : Bool) (addr : String) :
    (Pm_gasRemain st f addr).2 = st := by
  unfold Pm_gasRemain
  split
  · rfl
  · split
    · rfl
    · split <;> rfl

/-- One engine call preserves non-negativity of every stored `remainGas`, provided the
three configured tier ceilings are non-negative. -/
theorem step_nonneg (s : Signer) (st : Store) (c : Call)
    (hc : 0 ≤ s.createGas) (hm : 0 ≤ s.maxGas) (hv : 0 ≤ s.maxVipGas)
    (hwf : ∀ a ∈ st.accounts, 0 ≤ a.remainGas) :
    ∀ a ∈ (stepCall s st c).accounts, 0 ≤ a.remainGas := by
  cases c with
  | sponsor ext op e =>
    rcases sponsor_store_cases s st ext op e with h | ⟨u, account, hacc, hle, h⟩
    · simpa [stepCall, h] using hwf
    · intro b hb
      simp only [stepCall] at hb
      rw [h] at hb
      rcases mem_save hb with rfl | hb'
      · simpa using sub_nonneg.mpr hle
      · exact hwf b hb'
  | request ext addr =>
    rcases request_store_cases s st ext addr with h | ⟨a', h, hgas, _⟩
    · simpa [stepCall, h] using hwf
    · intro b hb
      simp only [stepCall] at hb
      rw [h] at hb
      rcases mem_save hb with rfl | hb'
      · rcases hgas with hg | hg | hg <;> rw [hg] <;> assumption
      · exact hwf b hb'
  | gasRemain f addr =>
    simpa [stepCall, gasRemain_store] using hwf
  | config =>
    simpa [stepCall] using hwf

/-- One engine call never decreases any stored account's `usedGas`, and never removes an
account. -/
theorem step_used_mono (s : Signer) (st : Store) (c : Call) (k : String) (a : Account)
    (hfind : st.findByAddress k = some a) :
    ∃ a', (stepCall s st c).findByAddress k = some a' ∧ a.usedGas ≤ a'.usedGas := by
  cases c with
  | sponsor ext op e =>
    rcases sponsor_store_cases s st ext op e with h | ⟨u, account, hacc, hle, h⟩
    · exact ⟨a, by simp [stepCall, h, hfind], le_refl _⟩
    · have haddr : account.address = goToLower u.sender := (findByAddress_spec hacc).2
      by_cases hk : k = account.address
      · have ha : a = account := by
          rw [hk, haddr] at hfind
          rw [hacc] at hfind
          exact (Option.some.inj hfind).symm
        refine ⟨{ account with usedGas := account.usedGas + totalCost u
                               remainGas := account.remainGas - totalCost u }, ?_, ?_⟩
        · simp only [stepCall]
          rw [h, hk]
          exact findByAddress_save_self st _
        · rw [ha]
          simpa using totalCost_nonneg u
      · refine ⟨a, ?_, le_refl _⟩
        simp only [stepCall]
        rw [h, findByAddress_save_ne st
            { account with usedGas := account.usedGas + totalCost u
                           remainGas := account.remainGas - totalCost u } k hk, hfind]
  | request ext addr =>
    rcases request_store_cases s st ext addr with h | ⟨a', h, _, hsplit⟩
    · exact ⟨a, by simp [stepCall, h, hfind], le_refl _⟩
    · by_cases hk : k = a'.address
      · rcases hsplit with ⟨a0, hacc, hused, haddr⟩ | ⟨hacc, hused, haddr⟩
        · have haddr0 : a0.address = goToLower addr := (findByAddress_spec hacc).2
          have ha : a = a0 := by
            rw [hk, haddr, haddr0] at hfind
            rw [hacc] at hfind
            exact (Option.some.inj hfind).symm
          refine ⟨a', ?_, ?_⟩
          · simp only [stepCall]
            rw [h, hk]
            exact findByAddress_save_self st _
          · rw [ha, ← hused]
        · rw [hk, haddr] at hfind
          rw [hacc] at hfind
          exact absurd hfind (by simp)
      · refine ⟨a, ?_, le_refl _⟩
        simp only [stepCall]
        rw [h, findByAddress_save_ne st _ k hk, hfind]
  | gasRemain f addr =>
    exact ⟨a, by simp [stepCall, gasRemain_store, hfind], le_refl _⟩
  | config =>
    exact ⟨a, hfind, le_refl _⟩

/-- Non-negativity of every stored balance is preserved along any call sequence. -/
theorem run_nonneg (s : Signer) (calls : List Call)
    (hc : 0 ≤ s.createGas) (hm : 0 ≤ s.maxGas) (hv : 0 ≤ s.maxVipGas) :
    ∀ st : Store, (∀ a ∈ st.accounts, 0 ≤ a.remainGas) →
      ∀ a ∈ (run s st calls).accounts, 0 ≤ a.remainGas := by
  induction calls with
  | nil => exact fun st hwf => hwf
  | cons c cs ih =>
    exact fun st hwf => ih (stepCall s st c) (step_nonneg s st c hc hm hv hwf)

/-- Every stored account's `usedGas` is non-decreasing along any call sequence. -/
theorem run_used_mono (s : Signer) (calls : List Call) :
    ∀ (st : Store) (k : String) (a : Account), st.findByAddress k = some a →
      ∃ a', (run s st calls).findByAddress k = some a' ∧ a.usedGas ≤ a'.usedGas := by
  induction calls with
  | nil => exact fun st k a h => ⟨a, h, le_refl _⟩
  | cons c cs ih =>
    intro st k a h
    obtain ⟨a1, h1, hle1⟩ := step_used_mono s st c k a h
    obtain ⟨a2, h2, hle2⟩ := ih (stepCall s st c) k a1 h1
    exact ⟨a2, h2, le_trans hle1 hle2⟩

/-- C5: across any sequence of `requestGas`, `sponsorUserOperation`, `gasRemain` and
`config` calls, every stored account's `usedGas` is monotonically non-decreasing, no call
ever stores a negative `remainingGas` (given non-negative configured tier ceilings), and a
sponsorship that would drive `remainingGas` negative is refused with `insufficient gas`
before any mutation. -/
theorem c5_ledger_invariants (s : Signer) (st : Store) (calls : List Call)
    (hc : 0 ≤ s.createGas) (hm : 0 ≤ s.maxGas) (hv : 0 ≤ s.maxVipGas)
    (hwf : ∀ a ∈ st.accounts, 0 ≤ a.remainGas) :
    (∀ a ∈ (run s st calls).accounts, 0 ≤ a.remainGas) ∧
    (∀ k a, st.findByAddress k = some a →
      ∃ a', (run s st calls).findByAddress k = some a' ∧ a.usedGas ≤ a'.usedGas) ∧
    (∀ ext op e u account, NewUserOperation op = .ok u → ext.findOk = true →
      st.findByAddress (goToLower u.sender) = some account →
      totalCost u > account.remainGas →
      Pm_sponsorUserOperation s st ext op e = (.error .insufficientGas, st, [])) :=
  ⟨run_nonneg s calls hc hm hv st hwf,
   fun k a h => run_used_mono s calls st k a h,
   fun ext op e u account hop hfind hacc hgt =>
     sponsor_refuses_overdraft s st ext op e u account hop hfind hacc hgt⟩

/-- Witness for C5 at a concrete input: after a concrete sponsorship call, `eAccount` is
still present and its `usedGas` did not decrease. -/
theorem c5_ledger_invariants_witness :
    ∃ a', (run cSigner eStore [Call.sponsor eExt eOp "z"]).findByAddress "0xeee" =
        some a' ∧ eAccount.usedGas ≤ a'.usedGas :=
  (c5_ledger_invariants cSigner eStore [Call.sponsor eExt eOp "z"] (by decide) (by decide)
      (by decide) (by decide)).2.1 "0xeee" eAccount (by decide)

/-! ## Dispatcher claims -/

/-- The coercion loop reports the first parameter whose wire value fails its type switch:
if the remaining parameter at relative position `j` (absolute index `i + j`) fails to
coerce and no earlier remaining position does, the loop stops with the `-32602` envelope
naming the absolute index, and the method is not invoked. -/
theorem processParams_first_invalid (ks : List GoKind) :
    ∀ (ws : List Wire) (i : Nat) (hz : Bool) (acc : List GoValue) (j : Nat) (k : GoKind)
      (w : Wire),
      ks[i + j]? = some k → ws[j]? = some w → coerceParam k w = .invalid →
      (∀ l, l < j → ∀ k' w', ks[i + l]? = some k' → ws[l]? = some w' →
        coerceParam k' w' ≠ .invalid) →
      processParams ks ws i hz acc = .error (-32602) (some (i + j)) := by
  intro ws
  induction ws with
  | nil =>
    intro i hz acc j k w hk hw hinv hearlier
    simp at hw
  | cons w0 rest ih =>
    intro i hz acc j k w hk hw hinv hearlier
    cases j with
    | zero =>
      simp only [List.getElem?_cons_zero, Option.some.injEq] at hw
      subst hw
      simp only [Nat.add_zero] at hk ⊢
      simp [processParams, hk, hinv]
    | succ j' =>
      have hlen : i + (j' + 1) < ks.length := by
        rcases List.getElem?_eq_some.mp hk with ⟨hlt, _⟩
        exact hlt
      have hk0 : ks[i]? = some ks[i] := List.getElem?_eq_getElem (by omega)
      have hne := hearlier 0 (Nat.succ_pos _) ks[i] w0 (by simp only [Nat.add_zero]; exact hk0) (by simp)
      simp only [processParams, hk0]
      have hidx : i + (j' + 1) = (i + 1) + j' := by omega
      cases hco : coerceParam ks[i] w0 with
      | invalid => exact absurd hco hne
      | zeroValue =>
        rw [hidx]
        exact ih (i + 1) true acc j' k w
          (by rw [show i + 1 + j' = i + (j' + 1) from by omega]; exact hk)
          (by simpa using hw) hinv
          (fun l hl k' w' hk' hw' => hearlier (l + 1) (by omega) k' w'
            (by rw [show i + (l + 1) = i + 1 + l from by omega]; exact hk')
            (by simpa using hw'))
      | ok v =>
        rw [hidx]
        exact ih (i + 1) hz (v :: acc) j' k w
          (by rw [show i + 1 + j' = i + (j' + 1) from by omega]; exact hk)
          (by simpa using hw) hinv
          (fun l hl k' w' hk' hw' => hearlier (l + 1) (by omega) k' w'
            (by rw [show i + (l + 1) = i + 1 + l from by omega]; exact hk')
            (by simpa using hw'))

/-- C9 (amended): for every dispatched call whose first coercion failure is at position
`j`, the dispatcher returns `InvalidParams` (code `-32602`) naming index `j` and the
registered operation is not invoked — for every declared shape *except* `string` (and the
generic `interface` shape): a string-typed parameter never fails, a non-string wire value
is silently coerced to the empty string and dispatch proceeds. -/
theorem c9_invalid_params (methods : String → Option (List GoKind)) (method : String)
    (ks : List GoKind) (ws : List Wire) (j : Nat) (k : GoKind) (w : Wire)
    (hm : methods (titleCase method) = some ks)
    (hk : ks[j]? = some k) (hw : ws[j]? = some w)
    (hinv : coerceParam k w = .invalid)
    (hfirst : ∀ l, l < j → ∀ k' w', ks[l]? = some k' → ws[l]? = some w' →
      coerceParam k' w' ≠ .invalid) :
    Process methods method ws = .error (-32602) (some j) ∧
    (∀ w', ∃ s', coerceParam .string w' = .ok (.strv s')) := by
  constructor
  · simp only [Process, hm]
    have := processParams_first_invalid ks ws 0 false [] j k w (by simpa using hk) hw hinv
      (fun l hl k' w' hk' hw' => hfirst l hl k' w' (by simpa using hk') hw')
    simpa using this
  · intro w'
    cases w' <;> exact ⟨_, rfl⟩

/-- Witness for the amended C9 at a concrete input: `pm_sponsorUserOperation` declares a
mapping-shaped first parameter; a string wire value there is refused with `-32602`
naming index 0. -/
theorem c9_invalid_params_witness :
    Process signerMethods "pm_sponsorUserOperation" [Wire.str "oops"] =
      DispatchResult.error (-32602) (some 0) ∧
    (∀ w', ∃ s', coerceParam .string w' = .ok (.strv s')) :=
  c9_invalid_params signerMethods "pm_sponsorUserOperation" [.map, .string]
    [Wire.str "oops"] 0 .map (Wire.str "oops") rfl rfl rfl rfl
    (fun l hl => absurd hl (Nat.not_lt_zero l))

/-- C9 counterexample: a non-string wire value supplied for a string-typed parameter is
NOT refused — the shape check in the `string` case is commented out in the source, so the
value is coerced to the zero value `""` and the operation is invoked.  `pm_gasRemain`
declares one string parameter and receives the number `5`: dispatch invokes with `""`
instead of returning `InvalidParams` naming index 0. -/
theorem c9_counterexample :
    Process signerMethods "pm_gasRemain" [Wire.num 5] =
      DispatchResult.invoked [GoValue.strv ""] ∧
    Process signerMethods "pm_gasRemain" [Wire.num 5] ≠
      DispatchResult.error (-32602) (some 0) :=
  ⟨rfl, fun h => DispatchResult.noConfusion h⟩
